import Mathlib

/-!
Verification development for the gaur fraud-triage pipeline.

The Python sources under `backend/app` are embedded shallowly:
strings are lists of characters, floating-point scores are rationals,
database writes are modelled as append-only logs of sink operations, and
the remote GPT backend is an explicit oracle parameter.  The regex
character classes `\d`, `\w`, `\s` of `re` are modelled over their ASCII
meaning, which is exact on every input considered here.
-/

namespace Gaur

/-- Text is modelled as a list of characters (Python `str`). -/
abbrev Str := List Char

/-- ASCII whitespace recognised by Python `str.strip` / regex `\s`. -/
def isPySpace (c : Char) : Bool :=
  c = ' ' || c = '\t' || c = '\n' || c = '\r' || c = '\x0b' || c = '\x0c'

/-- Python `str.lower` (ASCII case folding; Devanagari has no case). -/
def strLower (s : Str) : Str := s.map Char.toLower

/-- Python `str.strip`: drop leading and trailing whitespace. -/
def strStrip (s : Str) : Str :=
  ((s.dropWhile isPySpace).reverse.dropWhile isPySpace).reverse

/-- Convert a list of string literals to the character-list representation. -/
def strs (l : List String) : List Str := l.map String.data

/-- Python membership test `p in l` on strings: `p` occurs contiguously in `l`. -/
def occursIn (p l : Str) : Bool :=
  l.tails.any (fun suf => p.isPrefixOf suf)

/-- Some pattern of the list occurs in the text. -/
def anySubstring (pats : List Str) (l : Str) : Bool :=
  pats.any (fun p => occursIn p l)

/-- Regex `\w` (word character), ASCII fragment: letters, digits, underscore. -/
def isWordChar (c : Char) : Bool := c.isAlphanum || c = '_'

/-!
Embedding of `backend/app/ai/fraud_detector.py` (the lexical/pattern scorer).
-/

/-- The keyword list of `FraudDetector._load_fraud_keywords`, verbatim. -/
def fraudKeywords : List Str := strs [
  "advance payment", "advance", "upfront payment", "send money", "transfer money",
  "upi", "paytm", "phonepe", "googlepay", "gpay", "payment first", "pay now",
  "bank transfer", "wire transfer", "deposit now", "booking amount",
  "cheap hotel", "hotel booking", "cheap accommodation", "discounted stay",
  "limited offer", "book now", "hurry", "only few left", "last rooms",
  "free trip", "free stay", "urgent booking", "70% off", "80% off", "90% off",
  "luxury resort", "beachfront", "sea view", "private pool",
  "urgent", "immediately", "today only", "expires today", "last chance",
  "limited time", "act now", "don\x27t miss", "exclusive deal", "special offer",
  "guaranteed returns", "double your money", "triple your investment",
  "risk-free", "no risk", "100% profit", "passive income", "work from home",
  "earn lakhs", "earn crores", "get rich quick", "easy money",
  "cash on delivery not available", "advance only", "no cod",
  "original product", "brand new", "sealed pack", "factory price",
  "wholesale price", "dealer price", "imported", "usa imported",
  "whatsapp only", "call me", "dm for details", "inbox me",
  "telegram", "chat now", "message for price", "serious buyers only",
  "पैसे भेजो", "एडवांस", "बुकिंग", "सस्ता होटल", "मुफ्त",
  "तुरंत", "आज ही", "गारंटीड", "रिटर्न", "पैसा कमाएं",
  "पैसे पाठवा", "बुकिंग", "स्वस्त", "मोफत",
  "paise bhejo", "booking karo", "sasta hotel", "muft",
  "guarantee", "paisa kamao", "jaldi karo",
  "bet", "betting", "satta", "matka", "lottery", "jackpot",
  "casino", "poker", "roulette", "gambling", "games", "earn by playing",
  "massage service", "escort", "female companion", "full service",
  "call girl", "vip service", "private service", "24/7 available",
  "fake certificate", "duplicate", "passport", "driving license",
  "aadhaar", "pan card", "marksheet", "degree certificate",
  "bitcoin", "crypto", "trading bot", "forex", "binary options",
  "mining", "nft", "web3", "pump and dump"]

/-- Ten consecutive digits at the head of the text followed by a `\b`
word boundary (end of text or a non-word character), as in `\d\x7b10\x7d\b`. -/
def tenDigitsThenBreak (l : Str) : Bool :=
  (l.take 10).length = 10 && (l.take 10).all Char.isDigit &&
    (match l.drop 10 with
     | [] => true
     | c :: _ => !isWordChar c)

/-- One alternative of the rule `phone_number_in_text` matching at the
current position, given the previous character: `\b\d\x7b10\x7d\b`. -/
def phoneBranchPlain (prev : Option Char) (l : Str) : Bool :=
  (match prev with
   | none => true
   | some c => !isWordChar c) && tenDigitsThenBreak l

/-- The second alternative `\b\+91[\s-]?\d\x7b10\x7d\b`: a word boundary
before `+` requires a word character on the left. -/
def phoneBranchPlus (prev : Option Char) (l : Str) : Bool :=
  (match prev with
   | none => false
   | some c => isWordChar c) &&
  (match l with
   | '+' :: '9' :: '1' :: rest =>
       tenDigitsThenBreak rest ||
         (match rest with
          | c :: rest2 => (isPySpace c || c = '-') && tenDigitsThenBreak rest2
          | [] => false)
   | _ => false)

/-- Scan for the regex `\b\d\x7b10\x7d\b|\b\+91[\s-]?\d\x7b10\x7d\b`
(rule `phone_number_in_text`), tracking the previous character for `\b`. -/
def phoneSearch (prev : Option Char) : Str → Bool
  | [] => false
  | c :: t =>
      phoneBranchPlain prev (c :: t) || phoneBranchPlus prev (c :: t) ||
        phoneSearch (some c) t

/-- Rule `phone_number_in_text`. -/
def phoneNumberInText (l : Str) : Bool := phoneSearch none l

/-- Rule `multiple_payment_methods`: regex `(upi|paytm|phonepe|googlepay|gpay|bhim)`. -/
def multiplePaymentMethods (l : Str) : Bool :=
  anySubstring (strs ["upi", "paytm", "phonepe", "googlepay", "gpay", "bhim"]) l

/-- Heads of the alternation `(off|discount)`; the two words start with
distinct letters, so at most one matches at a given position. -/
def offOrDiscountAt (l : Str) : Bool :=
  "off".data.isPrefixOf l || "discount".data.isPrefixOf l

/-- Match `[567890]\d%` at the head of the text, returning the remainder. -/
def discountDigitsAt : Str → Option Str
  | c1 :: c2 :: '%' :: rest =>
      if (['5', '6', '7', '8', '9', '0'].contains c1) && c2.isDigit then some rest
      else none
  | _ => none

/-- Rule `excessive_discounts` matching at the current position:
`([567890]\d%\s*(off|discount))|((off|discount)\s*[567890]\d%)`. -/
def excessiveDiscountsAt (l : Str) : Bool :=
  (match discountDigitsAt l with
   | some rest => offOrDiscountAt (rest.dropWhile isPySpace)
   | none => false) ||
  (if "off".data.isPrefixOf l then
     (discountDigitsAt ((l.drop 3).dropWhile isPySpace)).isSome
   else false) ||
  (if "discount".data.isPrefixOf l then
     (discountDigitsAt ((l.drop 8).dropWhile isPySpace)).isSome
   else false)

/-- Rule `excessive_discounts` searched anywhere in the text. -/
def excessiveDiscounts (l : Str) : Bool := l.tails.any excessiveDiscountsAt

/-- Rule `urgency_pressure`: regex `(urgent|hurry|limited|today only|last chance|act now)`. -/
def urgencyPressure (l : Str) : Bool :=
  anySubstring (strs ["urgent", "hurry", "limited", "today only", "last chance", "act now"]) l

/-- Rule `guaranteed_returns`: regex `(guaranteed|100%|risk[- ]?free|double your money)`. -/
def guaranteedReturns (l : Str) : Bool :=
  anySubstring (strs ["guaranteed", "100%", "risk-free", "risk free", "riskfree",
    "double your money"]) l

/-- One pattern rule of `FraudDetector._load_fraud_patterns`: the regex is
embedded as its matching function. -/
structure PatternRule where
  name : String
  pattern : Str → Bool
  weight : ℚ
  reason : String

/-- The pattern rules of `FraudDetector._load_fraud_patterns`, in order. -/
def fraudPatterns : List PatternRule := [
  { name := "phone_number_in_text", pattern := phoneNumberInText, weight := 2/10,
    reason := "Contains phone number (unusual for legitimate posts)" },
  { name := "multiple_payment_methods", pattern := multiplePaymentMethods, weight := 15/100,
    reason := "Mentions payment methods" },
  { name := "excessive_discounts", pattern := excessiveDiscounts, weight := 25/100,
    reason := "Unrealistic discount (50%+ off)" },
  { name := "urgency_pressure", pattern := urgencyPressure, weight := 2/10,
    reason := "Urgency/pressure tactics" },
  { name := "guaranteed_returns", pattern := guaranteedReturns, weight := 3/10,
    reason := "Unrealistic guarantees" }]

/-- Python `' '.join` on the character-list representation. -/
def joinSpace : List Str → Str
  | [] => []
  | [x] => x
  | x :: y :: t => x ++ ' ' :: joinSpace (y :: t)

/-- Embedding of `FraudDetector._classify_fraud_type`: the `text` parameter
of the Python function is unused there and is therefore dropped. -/
def classify_fraud_type (keywords : List Str) : String :=
  let keyword_str := strLower (joinSpace keywords)
  if anySubstring (strs ["hotel", "booking", "resort", "stay", "accommodation"]) keyword_str then
    "hotel_booking_scam"
  else if anySubstring (strs ["investment", "returns", "profit", "earn", "income"]) keyword_str then
    "investment_scam"
  else if anySubstring (strs ["lottery", "jackpot", "satta", "bet", "casino"]) keyword_str then
    "gambling_scam"
  else if anySubstring (strs ["massage", "escort", "companion", "service"]) keyword_str then
    "prostitution_racket"
  else if anySubstring (strs ["certificate", "passport", "license", "aadhaar", "pan"]) keyword_str then
    "fake_documents"
  else if anySubstring (strs ["bitcoin", "crypto", "forex", "trading"]) keyword_str then
    "cryptocurrency_scam"
  else if anySubstring (strs ["advance", "payment", "upi", "transfer"]) keyword_str then
    "advance_payment_fraud"
  else
    "suspicious_content"

/-- Embedding of `FraudDetector._generate_reasoning`. -/
def generate_reasoning (keywords : List Str) (patterns : List String) (score : ℚ) : String :=
  let kwParts : List String :=
    if keywords.isEmpty then []
    else
      ["Detected " ++ toString keywords.length ++ " fraud keywords: " ++
        String.intercalate ", " ((keywords.take 5).map String.mk) ++
        (if keywords.length > 5 then " and " ++ toString (keywords.length - 5) ++ " more"
         else "")]
  let patParts : List String :=
    if patterns.isEmpty then []
    else
      ["Matched " ++ toString patterns.length ++ " fraud patterns: " ++
        String.intercalate ", " patterns]
  let scorePart : String :=
    if score ≥ 7/10 then "HIGH confidence fraud detection"
    else if score ≥ 4/10 then "Moderate fraud indicators present"
    else "Low fraud probability"
  String.intercalate ". " (kwParts ++ patParts ++ [scorePart]) ++ "."

/-- The dictionary returned by `FraudDetector.analyze_text`. -/
structure AnalysisResult where
  fraud_score : ℚ
  risk_level : String
  fraud_type : String
  matched_keywords : List Str
  matched_patterns : List String
  reasoning : String
deriving DecidableEq

/-- Embedding of `FraudDetector.analyze_text`. -/
def analyze_text (text : Str) : AnalysisResult :=
  if text = [] ∨ strStrip text = [] then
    { fraud_score := 0, risk_level := "LOW", fraud_type := "none",
      matched_keywords := [], matched_patterns := [],
      reasoning := "No content to analyze" }
  else
    let text_lower := strLower text
    let matched_keywords := fraudKeywords.filter (fun kw => occursIn (strLower kw) text_lower)
    let keyword_score : ℚ := min ((matched_keywords.length : ℚ) * (15/100)) (6/10)
    let matched_rules := fraudPatterns.filter (fun r => r.pattern text_lower)
    let pattern_score : ℚ := min ((matched_rules.map PatternRule.weight).sum) (4/10)
    let fraud_score : ℚ := min (keyword_score + pattern_score) 1
    let risk_level : String :=
      if fraud_score ≥ 7/10 then "HIGH"
      else if fraud_score ≥ 4/10 then "MEDIUM"
      else "LOW"
    { fraud_score := fraud_score,
      risk_level := risk_level,
      fraud_type := classify_fraud_type matched_keywords,
      matched_keywords := matched_keywords,
      matched_patterns := matched_rules.map PatternRule.name,
      reasoning := generate_reasoning matched_keywords (matched_rules.map PatternRule.name)
        fraud_score }

/-!
Embedding of `backend/app/ai/gpt_html_fraud_detector.py` (the GPT-4 HTML
adapter).  The remote chat-completion call is an oracle parameter.
-/

/-- The JSON object returned by the GPT backend; every field may be absent,
exactly as `_normalize_analysis` assumes via `dict.get`. -/
structure GptAnalysis where
  is_fraud : Option Bool
  fraud_score : Option ℚ
  risk_level : Option String
  fraud_type : Option String
  reasoning : Option String
  username : Option String
  content : Option String
  language : Option String
  red_flags : Option (List String)
  matched_keywords : Option (List String)
deriving DecidableEq

/-- The dictionary returned by `GPTHTMLFraudDetector.analyze_post_html`. -/
structure HtmlResult where
  is_fraud : Bool
  fraud_score : ℚ
  risk_level : String
  fraud_type : String
  reasoning : String
  username : Option String
  content : String
  language : String
  red_flags : List String
  matched_keywords : List String
deriving DecidableEq

/-- Embedding of `GPTHTMLFraudDetector._normalize_analysis`. -/
def normalize_analysis (analysis : GptAnalysis) : HtmlResult :=
  let score : ℚ := max 0 (min 1 (analysis.fraud_score.getD 0))
  let risk0 : String := analysis.risk_level.getD "LOW"
  { is_fraud := analysis.is_fraud.getD false,
    fraud_score := score,
    risk_level :=
      if risk0 = "HIGH" ∨ risk0 = "MEDIUM" ∨ risk0 = "LOW" then risk0
      else if score ≥ 7/10 then "HIGH"
      else if score ≥ 4/10 then "MEDIUM"
      else "LOW",
    fraud_type := analysis.fraud_type.getD "suspicious_content",
    reasoning := analysis.reasoning.getD "No analysis provided",
    username := analysis.username,
    content := analysis.content.getD "",
    language := analysis.language.getD "unknown",
    red_flags := analysis.red_flags.getD [],
    matched_keywords := analysis.matched_keywords.getD [] }

/-- Embedding of `GPTHTMLFraudDetector._fallback_analysis`. -/
def fallback_analysis : HtmlResult :=
  { is_fraud := false,
    fraud_score := 0,
    risk_level := "LOW",
    fraud_type := "analysis_failed",
    reasoning := "HTML analysis failed, treating as non-fraud for safety",
    username := none,
    content := "",
    language := "unknown",
    red_flags := [],
    matched_keywords := [] }

/-- Case-insensitive literal match at the head of the text (the pattern is
given in lower case, as in `re.IGNORECASE`). -/
def ciPrefix (pat l : Str) : Bool :=
  pat.isPrefixOf (strLower (l.take pat.length))

/-- Consume the shortest run ending in the (case-insensitive) close
delimiter, as the non-greedy `.*?` of the block regexes does. -/
def dropThroughClose (closePat : Str) : Str → Option Str
  | [] => none
  | c :: t =>
      if ciPrefix closePat (c :: t) then some ((c :: t).drop closePat.length)
      else dropThroughClose closePat t

/-- Try to match one block `<tag[^>]*>.*?</tag>` (with `re.DOTALL` and
`re.IGNORECASE`) at the current position, returning the text after it. -/
def tagBlockAt (tag : Str) (l : Str) : Option Str :=
  if ciPrefix ('<' :: tag) l then
    let afterOpen := l.drop (tag.length + 1)
    match afterOpen.dropWhile (· ≠ '>') with
    | '>' :: rest => dropThroughClose ('<' :: '/' :: tag ++ ['>']) rest
    | _ => none
  else none

/-- Try to match one HTML comment `<!--.*?-->` at the current position. -/
def commentBlockAt (l : Str) : Option Str :=
  if "<!--".data.isPrefixOf l then dropThroughClose "-->".data (l.drop 4)
  else none

/-- Left-to-right scan of `re.sub(pattern, '', html)`: replace each
non-overlapping leftmost match by nothing and continue after it.  The fuel
starts at the input length plus one; every step consumes at least one
character, so it never runs out. -/
def subBlocksFuel (hit : Str → Option Str) : Nat → Str → Str
  | 0, _ => []
  | _ + 1, [] => []
  | fuel + 1, c :: t =>
      match hit (c :: t) with
      | some rest => subBlocksFuel hit fuel rest
      | none => c :: subBlocksFuel hit fuel t

/-- Remove every occurrence of a block pattern from the text. -/
def subBlocks (hit : Str → Option Str) (l : Str) : Str :=
  subBlocksFuel hit (l.length + 1) l

/-- The truncation budget of `_clean_html` (named constant `max_length`). -/
def cleanHtmlMaxLength : Nat := 15000

/-- Embedding of `GPTHTMLFraudDetector._clean_html`: strip script tags,
style tags and comments, truncate to the character budget, and strip
surrounding whitespace. -/
def clean_html (html : Str) : Str :=
  let h1 := subBlocks (tagBlockAt "script".data) html
  let h2 := subBlocks (tagBlockAt "style".data) h1
  let h3 := subBlocks commentBlockAt h2
  let h4 :=
    if h3.length > cleanHtmlMaxLength then
      h3.take cleanHtmlMaxLength ++ "\n... [truncated]".data
    else h3
  strStrip h4

/-- Outcome of the remote chat-completion round trip, seen from
`analyze_post_html`: the call can raise (network failure, timeout, missing
connectivity, API error), return a body that is not valid JSON, or return a
parsed JSON object. -/
inductive GptBackend where
  | raises : GptBackend
  | nonJson : GptBackend
  | parsed : GptAnalysis → GptBackend
deriving DecidableEq

/-- Embedding of `GPTHTMLFraudDetector.analyze_post_html`.  `apiKey` is the
key resolved in `__init__` (argument or environment), `libAvailable` models
whether `import openai` succeeds, and `backend` is the oracle for the remote
call.  The function is total: every failure path returns the fallback. -/
def analyze_post_html (apiKey : Option String) (libAvailable : Bool)
    (html : Str) (backend : GptBackend) : HtmlResult :=
  if apiKey = none then fallback_analysis
  else if !libAvailable then fallback_analysis
  else
    let cleaned := clean_html html
    if cleaned = [] ∨ cleaned.length < 50 then fallback_analysis
    else
      match backend with
      | .raises => fallback_analysis
      | .nonJson => fallback_analysis
      | .parsed analysis => normalize_analysis analysis

/-!
Embedding of the per-post triage in
`backend/app/scrapers/facebook/search_scraper.py` (`_search_keyword`,
production mode) and its two database writers `_store_post` and
`_create_fraud_alert`.  Rows keep the columns computed from the post and
its analysis; timestamps, screenshot paths and JSON wrapping are elided.
-/

/-- A row inserted into `ai_scraped_posts`.  Columns used only by one of
the two writer paths are optional; the other writer leaves them unset. -/
structure ScrapedPostRow where
  platform : String
  author_name : Option String
  author_profile_url : Option String
  content : String
  post_url : Option String
  fraud_confidence : ℚ
  is_fraudulent : Bool
  fraud_reasons : Option (List String)
  processed : Bool
deriving DecidableEq

/-- A row inserted into `ai_fraud_alerts`. -/
structure FraudAlertRow where
  source_platform : String
  content_text : String
  confidence_score : ℚ
  risk_level : String
  fraud_type : String
  detected_keywords : List String
  status : String
deriving DecidableEq

/-- One write against the persistence sink. -/
inductive SinkOp where
  | storePost : ScrapedPostRow → SinkOp
  | createAlert : FraudAlertRow → SinkOp
deriving DecidableEq

/-- What `_search_keyword` does with one non-test-mode post element. -/
inductive SearchAction where
  | skippedSponsored : SearchAction
  | skippedShortHtml : SearchAction
  | skippedShortText : SearchAction
  | skippedNoContent : SearchAction
  | analyzedKept : SearchAction
  | analyzedStored : SearchAction
deriving DecidableEq

/-- The control flow of `_search_keyword` for one post: the sponsored
check, the raw-HTML length gate (100), the clean-text length gate (50),
the extracted-content gate (20), then the retention threshold 0.5. -/
def searchPostAction (sponsored : Bool) (html : Str) (cleanText : Str)
    (fraudResult : HtmlResult) : SearchAction :=
  if sponsored then .skippedSponsored
  else if html = [] ∨ html.length < 100 then .skippedShortHtml
  else if cleanText = [] ∨ cleanText.length < 50 then .skippedShortText
  else if fraudResult.content = "" ∨ fraudResult.content.length < 20 then .skippedNoContent
  else if fraudResult.fraud_score ≥ 1/2 then .analyzedStored
  else .analyzedKept

/-- The `ai_scraped_posts` row written by `_store_post` for a search hit. -/
def searchStoreRow (fraudResult : HtmlResult) : ScrapedPostRow :=
  { platform := "facebook_search",
    author_name := fraudResult.username,
    author_profile_url := none,
    content := fraudResult.content,
    post_url := none,
    fraud_confidence := fraudResult.fraud_score,
    is_fraudulent := fraudResult.fraud_score ≥ 1/2,
    fraud_reasons := none,
    processed := true }

/-- The `ai_fraud_alerts` row written by `_create_fraud_alert`. -/
def searchAlertRow (fraudResult : HtmlResult) : FraudAlertRow :=
  { source_platform := "facebook_search",
    content_text := fraudResult.content,
    confidence_score := fraudResult.fraud_score,
    risk_level := fraudResult.risk_level,
    fraud_type := fraudResult.fraud_type,
    detected_keywords := fraudResult.matched_keywords,
    status := "open" }

/-- The sink writes `_search_keyword` issues for one post: a store and an
alert exactly on the `analyzedStored` path, nothing otherwise. -/
def searchSinkOps (sponsored : Bool) (html : Str) (cleanText : Str)
    (fraudResult : HtmlResult) : List SinkOp :=
  match searchPostAction sponsored html cleanText fraudResult with
  | .analyzedStored =>
      [.storePost (searchStoreRow fraudResult), .createAlert (searchAlertRow fraudResult)]
  | _ => []

/-!
Embedding of `backend/app/api/v1/threats.py` (`update_threat_status`).
-/

/-- One persisted alert, as far as the status endpoint reads it. -/
structure AlertRec where
  id : Nat
  status : String
deriving DecidableEq

/-- The FastAPI query validation `regex="^(open|investigating|resolved)$"`. -/
def validStatus (s : String) : Bool :=
  s = "open" || s = "investigating" || s = "resolved"

/-- Embedding of `update_threat_status`: an invalid status never reaches
the handler (the framework rejects it); otherwise the UPDATE sets the
status of the matching rows unconditionally.  Returns the new table and
whether the endpoint reported success. -/
def update_threat_status (db : List AlertRec) (threatId : Nat) (status : String) :
    List AlertRec × Bool :=
  if validStatus status then
    (db.map (fun a => if a.id = threatId then { a with status := status } else a),
     db.any (fun a => a.id = threatId))
  else (db, false)

/-!
Embedding of `backend/app/scrapers/facebook/feed_scraper.py`
(`_process_batch_with_ai` and `_store_fraud_post`).
-/

/-- One scraped feed post handed to the batch processor. -/
structure FeedPost where
  author_name : Option String
  author_profile_url : Option String
  content : String
  post_url : Option String
deriving DecidableEq

/-- The `ai_scraped_posts` row written by `_store_fraud_post`. -/
def feedStoreRow (post : FeedPost) (aiResult : AnalysisResult) : ScrapedPostRow :=
  { platform := "facebook",
    author_name := post.author_name,
    author_profile_url := post.author_profile_url,
    content := post.content,
    post_url := post.post_url,
    fraud_confidence := aiResult.fraud_score,
    is_fraudulent := true,
    fraud_reasons := some (aiResult.matched_keywords.map String.mk),
    processed := true }

/-- Sink writes of `_process_batch_with_ai` for one post of the batch:
posts without content are skipped, the rest are scored by
`FraudDetector.analyze_text`, and only a score of at least 0.5 is stored.
The feed path never writes to `ai_fraud_alerts`. -/
def feedPostOps (post : FeedPost) : List SinkOp :=
  if post.content = "" then []
  else
    let aiResult := analyze_text post.content.data
    if aiResult.fraud_score ≥ 1/2 then [.storePost (feedStoreRow post aiResult)]
    else []

/-- Sink writes of `_process_batch_with_ai` over a whole batch, in order. -/
def processBatchOps (posts : List FeedPost) : List SinkOp :=
  (posts.map feedPostOps).flatten

/-- The list of fraud posts `_process_batch_with_ai` returns. -/
def processBatchFraudPosts (posts : List FeedPost) : List FeedPost :=
  posts.filter (fun post =>
    post.content ≠ "" && (analyze_text post.content.data).fraud_score ≥ 1/2)

/-!
Spec-side formulation of the fraud-type priority (for the refinement
statement of the classification order).
-/

/-- The ordered category/trigger table the spec describes for fraud-type
classification: hotel/booking, investment, gambling, adult services, fake
documents, cryptocurrency, payment fraud, in that priority order. -/
def specFraudTypePriority : List (String × List Str) := [
  ("hotel_booking_scam", strs ["hotel", "booking", "resort", "stay", "accommodation"]),
  ("investment_scam", strs ["investment", "returns", "profit", "earn", "income"]),
  ("gambling_scam", strs ["lottery", "jackpot", "satta", "bet", "casino"]),
  ("prostitution_racket", strs ["massage", "escort", "companion", "service"]),
  ("fake_documents", strs ["certificate", "passport", "license", "aadhaar", "pan"]),
  ("cryptocurrency_scam", strs ["bitcoin", "crypto", "forex", "trading"]),
  ("advance_payment_fraud", strs ["advance", "payment", "upi", "transfer"])]

/-- A category of the priority table fires when one of its trigger words
occurs in some matched keyword (case-folded). -/
def specCatFires (keywords : List Str) (cat : String × List Str) : Bool :=
  cat.2.any (fun trig => keywords.any (fun kw => occursIn trig (strLower kw)))

/-- One deterministic pass over an ordered category table: the first
firing category wins. -/
def specFirstCategory (keywords : List Str) : List (String × List Str) → String
  | [] => "suspicious_content"
  | cat :: rest =>
      if specCatFires keywords cat then cat.1 else specFirstCategory keywords rest

/-- Spec-side classifier: the single pass applied to the priority table. -/
def specClassifyBySet (keywords : List Str) : String :=
  specFirstCategory keywords specFraudTypePriority

/-- The risk-level thresholds of §4.3 of the spec, as one function. -/
def riskOfScore (score : ℚ) : String :=
  if score ≥ 7/10 then "HIGH"
  else if score ≥ 4/10 then "MEDIUM"
  else "LOW"

/-!
Concrete sample values used by boundary witnesses and counterexamples.
-/

/-- A well-formed backend reply scoring 0.9 with extracted content. -/
def sampleGptAnalysis : GptAnalysis :=
  { is_fraud := some true,
    fraud_score := some (9/10),
    risk_level := some "HIGH",
    fraud_type := some "hotel_booking_scam",
    reasoning := some "backend reasoning",
    username := some "scammer",
    content := some "Send advance payment via UPI now",
    language := some "eng",
    red_flags := some ["no verification"],
    matched_keywords := some ["advance payment"] }

/-- A detector result exactly at the retention boundary 0.5. -/
def boundaryAcceptResult : HtmlResult :=
  { is_fraud := true,
    fraud_score := 1/2,
    risk_level := "MEDIUM",
    fraud_type := "hotel_booking_scam",
    reasoning := "sample reasoning",
    username := some "user",
    content := "12345678901234567890",
    language := "eng",
    red_flags := [],
    matched_keywords := [] }

/-- The same detector result scored just below the boundary, at 0.4999. -/
def boundaryDiscardResult : HtmlResult :=
  { boundaryAcceptResult with fraud_score := 4999/10000 }

/-- The fraudulent post of example scenario 4 (lexical score 0.8). -/
def scenarioScamPost : FeedPost :=
  { author_name := some "scammer", author_profile_url := some "profile-url",
    content := "urgent hurry act now bet", post_url := some "post-url" }

/-- A legitimate post of example scenario 4 (lexical score 0). -/
def scenarioOtherPost (author : String) : FeedPost :=
  { author_name := some author, author_profile_url := none,
    content := "fresh coconuts for sale", post_url := none }

/-- The ten-post batch of example scenario 4: post number 3 scores 0.8
under the lexical scorer, every other post scores 0. -/
def scenarioBatch : List FeedPost :=
  [scenarioOtherPost "seller one", scenarioOtherPost "seller two", scenarioScamPost,
   scenarioOtherPost "seller four", scenarioOtherPost "seller five",
   scenarioOtherPost "seller six", scenarioOtherPost "seller seven",
   scenarioOtherPost "seller eight", scenarioOtherPost "seller nine",
   scenarioOtherPost "seller ten"]

/-!
Helper lemmas.
-/

lemma strStrip_nil : strStrip [] = [] := rfl

lemma strStrip_eq_nil_of_all_space {l : Str} (h : ∀ c ∈ l, isPySpace c = true) :
    strStrip l = [] := by
  have h1 : l.dropWhile isPySpace = [] := List.dropWhile_eq_nil_iff.2 (by simpa using h)
  unfold strStrip
  rw [h1]
  rfl

lemma analyze_text_of_blank {text : Str} (h : text = [] ∨ strStrip text = []) :
    analyze_text text =
      { fraud_score := 0, risk_level := "LOW", fraud_type := "none",
        matched_keywords := [], matched_patterns := [],
        reasoning := "No content to analyze" } := by
  unfold analyze_text
  exact if_pos h

/-- The non-blank branch of `analyze_text`, field by field. -/
lemma analyze_text_of_content {text : Str} (h : ¬(text = [] ∨ strStrip text = [])) :
    analyze_text text =
      (let matched_keywords :=
        fraudKeywords.filter (fun kw => occursIn (strLower kw) (strLower text))
      let keyword_score : ℚ := min ((matched_keywords.length : ℚ) * (15/100)) (6/10)
      let matched_rules := fraudPatterns.filter (fun r => r.pattern (strLower text))
      let pattern_score : ℚ := min ((matched_rules.map PatternRule.weight).sum) (4/10)
      let fraud_score : ℚ := min (keyword_score + pattern_score) 1
      { fraud_score := fraud_score,
        risk_level := riskOfScore fraud_score,
        fraud_type := classify_fraud_type matched_keywords,
        matched_keywords := matched_keywords,
        matched_patterns := matched_rules.map PatternRule.name,
        reasoning := generate_reasoning matched_keywords (matched_rules.map PatternRule.name)
          fraud_score } : AnalysisResult) := by
  unfold analyze_text riskOfScore
  rw [if_neg h]

lemma fraudPatterns_weight_nonneg : ∀ r ∈ fraudPatterns, 0 ≤ r.weight := by
  intro r hr
  simp only [fraudPatterns, List.mem_cons, List.mem_singleton] at hr
  rcases hr with h | h | h | h | h | h
  all_goals first
  | (subst h; norm_num)
  | exact absurd h (List.not_mem_nil r)

lemma analyze_text_score_nonneg (text : Str) : 0 ≤ (analyze_text text).fraud_score := by
  by_cases h : text = [] ∨ strStrip text = []
  · rw [analyze_text_of_blank h]
  · rw [analyze_text_of_content h]
    refine le_min (add_nonneg (le_min ?_ (by norm_num)) (le_min ?_ (by norm_num))) (by norm_num)
    · positivity
    · exact List.sum_nonneg (by
        intro x hx
        obtain ⟨r, hr, rfl⟩ := List.mem_map.1 hx
        exact fraudPatterns_weight_nonneg r (List.mem_of_mem_filter hr))

lemma analyze_text_score_le_one (text : Str) : (analyze_text text).fraud_score ≤ 1 := by
  by_cases h : text = [] ∨ strStrip text = []
  · rw [analyze_text_of_blank h]; norm_num
  · rw [analyze_text_of_content h]
    exact min_le_right _ _

lemma normalize_analysis_score_nonneg (a : GptAnalysis) :
    0 ≤ (normalize_analysis a).fraud_score :=
  le_max_left 0 _

lemma normalize_analysis_score_le_one (a : GptAnalysis) :
    (normalize_analysis a).fraud_score ≤ 1 :=
  max_le (by norm_num) (min_le_left 1 _)

lemma suffix_replicate {t : Str} {n : Nat} {c : Char} (h : t <:+ List.replicate n c) :
    t = List.replicate t.length c :=
  List.eq_replicate_of_mem (fun _ hb => List.eq_of_mem_replicate (h.sublist.subset hb))

lemma isPrefixOf_replicate_a {c0 : Char} {p : Str} (hc : (c0 == 'a') = false) :
    ∀ {k : Nat}, (c0 :: p).isPrefixOf (List.replicate k 'a') = false := by
  intro k
  cases k with
  | zero => rfl
  | succ j =>
      rw [List.replicate_succ]
      show (c0 == 'a' && p.isPrefixOf (List.replicate j 'a')) = false
      rw [hc, Bool.false_and]

lemma strLower_replicate_a (k : Nat) :
    strLower (List.replicate k 'a') = List.replicate k 'a' := by
  unfold strLower
  rw [List.map_replicate]
  have ha : 'a'.toLower = 'a' := by decide
  rw [ha]

lemma ciPrefix_lt_replicate_a (p : Str) (k : Nat) :
    ciPrefix ('<' :: p) (List.replicate k 'a') = false := by
  unfold ciPrefix
  rw [List.take_replicate, strLower_replicate_a]
  exact isPrefixOf_replicate_a (by decide)

lemma tagBlockAt_replicate_a (tag : Str) (k : Nat) :
    tagBlockAt tag (List.replicate k 'a') = none := by
  unfold tagBlockAt
  rw [ciPrefix_lt_replicate_a]
  rfl

lemma commentBlockAt_replicate_a (k : Nat) :
    commentBlockAt (List.replicate k 'a') = none := by
  unfold commentBlockAt
  have h : "<!--".data.isPrefixOf (List.replicate k 'a') = false := by
    show ('<' :: "!--".data).isPrefixOf (List.replicate k 'a') = false
    exact isPrefixOf_replicate_a (by decide)
  rw [h]
  rfl

lemma subBlocksFuel_id (hit : Str → Option Str) :
    ∀ (fuel : Nat) (l : Str), l.length ≤ fuel →
      (∀ t : Str, t <:+ l → hit t = none) → subBlocksFuel hit fuel l = l := by
  intro fuel
  induction fuel with
  | zero =>
      intro l hl _
      cases l with
      | nil => rfl
      | cons c t => simp at hl
  | succ n ih =>
      intro l hl hhit
      cases l with
      | nil => rfl
      | cons c t =>
          show (match hit (c :: t) with
            | some rest => subBlocksFuel hit n rest
            | none => c :: subBlocksFuel hit n t) = c :: t
          rw [hhit (c :: t) (List.suffix_refl _)]
          have ht : subBlocksFuel hit n t = t :=
            ih t (by simpa using Nat.lt_succ_iff.mp (Nat.lt_of_lt_of_le (Nat.lt_succ_self _) hl))
              (fun t' ht' => hhit t' (ht'.trans (List.suffix_cons c t)))
          rw [ht]

lemma subBlocks_id {hit : Str → Option Str} {l : Str}
    (h : ∀ t : Str, t <:+ l → hit t = none) : subBlocks hit l = l :=
  subBlocksFuel_id hit (l.length + 1) l (Nat.le_succ _) h

lemma subBlocks_tag_replicate_a (tag : Str) (k : Nat) :
    subBlocks (tagBlockAt tag) (List.replicate k 'a') = List.replicate k 'a' :=
  subBlocks_id (fun t ht => by rw [suffix_replicate ht]; exact tagBlockAt_replicate_a tag _)

lemma subBlocks_comment_replicate_a (k : Nat) :
    subBlocks commentBlockAt (List.replicate k 'a') = List.replicate k 'a' :=
  subBlocks_id (fun t ht => by rw [suffix_replicate ht]; exact commentBlockAt_replicate_a _)

lemma strStrip_eq_self {l : Str} {c d : Char}
    (h1 : l.head? = some c) (hc : isPySpace c = false)
    (h2 : l.getLast? = some d) (hd : isPySpace d = false) : strStrip l = l := by
  cases l with
  | nil => simp at h1
  | cons x t =>
      simp only [List.head?_cons, Option.some.injEq] at h1
      subst h1
      unfold strStrip
      rw [List.dropWhile_cons, hc]
      simp only [Bool.false_eq_true, if_false]
      cases hrev : (x :: t).reverse with
      | nil => exact absurd (congrArg List.length hrev) (by simp)
      | cons e r =>
          have he : e = d := by
            have hh := List.head?_reverse (x :: t)
            rw [hrev] at hh
            simp only [List.head?_cons] at hh
            rw [h2] at hh
            exact Option.some_injective _ hh
          subst he
          rw [List.dropWhile_cons, hd]
          simp only [Bool.false_eq_true, if_false]
          rw [← hrev, List.reverse_reverse]

lemma clean_html_replicate_a_small {k : Nat} (hk1 : 1 ≤ k) (hk : k ≤ cleanHtmlMaxLength) :
    clean_html (List.replicate k 'a') = List.replicate k 'a' := by
  unfold clean_html
  simp only [subBlocks_tag_replicate_a, subBlocks_comment_replicate_a, List.length_replicate]
  rw [if_neg (by simpa using hk)]
  obtain ⟨j, rfl⟩ := Nat.exists_eq_add_of_le hk1
  refine strStrip_eq_self (c := 'a') (d := 'a') ?_ (by decide) ?_ (by decide)
  · rw [Nat.add_comm, List.replicate_succ]
    rfl
  · rw [Nat.add_comm, List.replicate_succ']
    exact List.getLast?_concat _

lemma clean_html_replicate_a_large :
    clean_html (List.replicate 20000 'a') =
      List.replicate cleanHtmlMaxLength 'a' ++ "\n... [truncated]".data := by
  unfold clean_html
  simp only [subBlocks_tag_replicate_a, subBlocks_comment_replicate_a, List.length_replicate]
  rw [if_pos (by simp [cleanHtmlMaxLength])]
  rw [List.take_replicate]
  have hmin : min cleanHtmlMaxLength 20000 = cleanHtmlMaxLength := by decide
  rw [hmin]
  refine strStrip_eq_self (c := 'a') (d := ']') ?_ (by decide) ?_ (by decide)
  · show (List.replicate cleanHtmlMaxLength 'a' ++ _).head? = some 'a'
    have hm : cleanHtmlMaxLength = 14999 + 1 := by decide
    rw [hm, List.replicate_succ]
    rfl
  · rw [List.getLast?_append_of_ne_nil _ (by decide)]
    decide

lemma clean_html_replicate_a_large_length :
    (clean_html (List.replicate 20000 'a')).length = 15016 := by
  rw [clean_html_replicate_a_large, List.length_append, List.length_replicate]
  rfl

lemma analyze_post_html_fallback {apiKey : Option String} {lib : Bool} {html : Str}
    {backend : GptBackend}
    (h : apiKey = none ∨ lib = false ∨ backend = .raises ∨ backend = .nonJson ∨
      (clean_html html).length < 50) :
    analyze_post_html apiKey lib html backend = fallback_analysis := by
  by_cases hk : apiKey = none
  · simp [analyze_post_html, hk]
  · cases lib with
    | false => simp [analyze_post_html, hk]
    | true =>
        rcases h with h | h | h | h | h
        · exact absurd h hk
        · exact absurd h (by simp)
        · subst h
          simp only [analyze_post_html, if_neg hk, Bool.not_true, Bool.false_eq_true, if_false]
          split
          · rfl
          · rfl
        · subst h
          simp only [analyze_post_html, if_neg hk, Bool.not_true, Bool.false_eq_true, if_false]
          split
          · rfl
          · rfl
        · simp only [analyze_post_html, if_neg hk, Bool.not_true, Bool.false_eq_true, if_false]
          rw [if_pos (Or.inr h)]

lemma analyze_post_html_parsed {key : String} {html : Str} {a : GptAnalysis}
    (hlen : ¬(clean_html html = [] ∨ (clean_html html).length < 50)) :
    analyze_post_html (some key) true html (.parsed a) = normalize_analysis a := by
  unfold analyze_post_html
  rw [if_neg (by simp)]
  simp only [Bool.not_true, Bool.false_eq_true, if_false]
  rw [if_neg hlen]

lemma searchSinkOps_eq (sponsored : Bool) (html cleanText : Str) (r : HtmlResult) :
    searchSinkOps sponsored html cleanText r =
      if searchPostAction sponsored html cleanText r = .analyzedStored then
        [.storePost (searchStoreRow r), .createAlert (searchAlertRow r)]
      else [] := by
  unfold searchSinkOps
  cases hact : searchPostAction sponsored html cleanText r <;> simp [hact]

lemma searchPostAction_stored {sponsored : Bool} {html cleanText : Str} {r : HtmlResult}
    (ha : searchPostAction sponsored html cleanText r = .analyzedStored) :
    ¬(r.content = "" ∨ r.content.length < 20) ∧ 1/2 ≤ r.fraud_score := by
  unfold searchPostAction at ha
  split_ifs at ha with h1 h2 h3 h4 h5
  exact ⟨h4, h5⟩

lemma searchPostAction_of_gates {sponsored : Bool} {html cleanText : Str} {r : HtmlResult}
    (hs : sponsored = false) (h100 : 100 ≤ html.length) (h50 : 50 ≤ cleanText.length)
    (h20 : 20 ≤ r.content.length) :
    searchPostAction sponsored html cleanText r =
      if r.fraud_score ≥ 1/2 then .analyzedStored else .analyzedKept := by
  unfold searchPostAction
  rw [if_neg (by simp [hs])]
  rw [if_neg (by
    rintro (hnil | hlt)
    · rw [hnil] at h100; simp at h100
    · omega)]
  rw [if_neg (by
    rintro (hnil | hlt)
    · rw [hnil] at h50; simp at h50
    · omega)]
  rw [if_neg (by
    rintro (hnil | hlt)
    · rw [hnil] at h20; simp at h20
    · omega)]

lemma boundaryAccept_score : boundaryAcceptResult.fraud_score = 1/2 := rfl

lemma boundaryDiscard_score : boundaryDiscardResult.fraud_score = 4999/10000 := rfl

lemma boundaryDiscard_lt : boundaryDiscardResult.fraud_score < 1/2 := by
  rw [boundaryDiscard_score]
  norm_num

lemma normalize_sample_score :
    (normalize_analysis sampleGptAnalysis).fraud_score = 9/10 := by
  show max 0 (min 1 ((9 : ℚ)/10)) = 9/10
  norm_num

/-- C1: in the keyword-search pipeline, once a post reaches the triage
decision (not sponsored, raw HTML at least 100 characters, clean text at
least 50, extracted content at least 20), it is stored together with an
alert exactly when its fraud score reaches the retention threshold 0.5;
an alert is only ever created for a score of at least 0.5, and a
discarded post is not stored in any form. -/
theorem C1_retention_threshold (sponsored : Bool) (html cleanText : Str) (r : HtmlResult) :
    ((∃ row, SinkOp.createAlert row ∈ searchSinkOps sponsored html cleanText r) →
      1/2 ≤ r.fraud_score) ∧
    (r.fraud_score < 1/2 → searchSinkOps sponsored html cleanText r = []) ∧
    (sponsored = false → 100 ≤ html.length → 50 ≤ cleanText.length →
      20 ≤ r.content.length →
      ((1/2 ≤ r.fraud_score ↔
          searchSinkOps sponsored html cleanText r =
            [.storePost (searchStoreRow r), .createAlert (searchAlertRow r)]) ∧
       (r.fraud_score < 1/2 ↔ searchSinkOps sponsored html cleanText r = []))) := by
  refine ⟨?_, ?_, ?_⟩
  · rintro ⟨row, hrow⟩
    rw [searchSinkOps_eq] at hrow
    by_cases hact : searchPostAction sponsored html cleanText r = .analyzedStored
    · exact (searchPostAction_stored hact).2
    · rw [if_neg hact] at hrow
      exact absurd hrow (List.not_mem_nil _)
  · intro hlt
    rw [searchSinkOps_eq, if_neg]
    intro hact
    exact absurd ((searchPostAction_stored hact).2) (not_le.mpr hlt)
  · intro hs h100 h50 h20
    have haction := searchPostAction_of_gates hs h100 h50 h20
    constructor
    · by_cases hsc : r.fraud_score ≥ 1/2
      · rw [searchSinkOps_eq, haction, if_pos hsc, if_pos rfl]
        exact iff_of_true hsc rfl
      · rw [searchSinkOps_eq, haction, if_neg hsc, if_neg (by simp)]
        exact iff_of_false hsc (by simp)
    · by_cases hsc : r.fraud_score ≥ 1/2
      · rw [searchSinkOps_eq, haction, if_pos hsc, if_pos rfl]
        exact iff_of_false (not_lt.mpr hsc) (by simp)
      · rw [searchSinkOps_eq, haction, if_neg hsc, if_neg (by simp)]
        exact iff_of_true (lt_of_not_ge hsc) rfl

/-- Witness for C1 at both sides of the boundary: a result scoring exactly
0.5 is stored with an alert, a result scoring 0.4999 leaves no writes. -/
theorem C1_retention_threshold_witness :
    (searchSinkOps false (List.replicate 100 'x') (List.replicate 60 'y')
        boundaryAcceptResult =
      [.storePost (searchStoreRow boundaryAcceptResult),
       .createAlert (searchAlertRow boundaryAcceptResult)]) ∧
    (searchSinkOps false (List.replicate 100 'x') (List.replicate 60 'y')
        boundaryDiscardResult = []) :=
  ⟨(((C1_retention_threshold false (List.replicate 100 'x') (List.replicate 60 'y')
        boundaryAcceptResult).2.2 rfl (by decide) (by decide) (by decide)).1).mp
      (le_of_eq boundaryAccept_score.symm),
   (C1_retention_threshold false (List.replicate 100 'x') (List.replicate 60 'y')
        boundaryDiscardResult).2.1 boundaryDiscard_lt⟩

/-- C2 counterexample: oversized input does not map to the fallback.  A
post of 20000 characters exceeds the 15000-character budget, yet the
adapter truncates it and analyzes it normally; with a healthy backend the
result is the normalized backend verdict, not the fallback. -/
theorem C2_counterexample :
    (List.replicate 20000 'a').length > cleanHtmlMaxLength ∧
    analyze_post_html (some "key") true (List.replicate 20000 'a')
        (.parsed sampleGptAnalysis) ≠ fallback_analysis := by
  constructor
  · rw [List.length_replicate]
    norm_num [cleanHtmlMaxLength]
  · rw [analyze_post_html_parsed (by
      rintro (hnil | hlt)
      · have hl := clean_html_replicate_a_large_length
        rw [hnil] at hl
        simp at hl
      · have hl := clean_html_replicate_a_large_length
        omega)]
    intro heq
    have hsc := congrArg HtmlResult.fraud_score heq
    rw [normalize_sample_score] at hsc
    have : fallback_analysis.fraud_score = 0 := rfl
    rw [this] at hsc
    norm_num at hsc

/-- C2 amended: missing credentials, a missing client library, a backend
call that raises (network failure, timeout), a non-JSON reply, and input
shorter than 50 characters after cleaning all map to the one complete
fallback result with score 0, LOW risk and fraud type analysis_failed;
oversized input, by contrast, is truncated during cleaning and analyzed
normally. -/
theorem C2_fallback_guarantee (apiKey : Option String) (lib : Bool) (html : Str)
    (backend : GptBackend)
    (h : apiKey = none ∨ lib = false ∨ backend = .raises ∨ backend = .nonJson ∨
      (clean_html html).length < 50) :
    analyze_post_html apiKey lib html backend = fallback_analysis ∧
    fallback_analysis.fraud_score = 0 ∧
    fallback_analysis.risk_level = "LOW" ∧
    fallback_analysis.fraud_type = "analysis_failed" :=
  ⟨analyze_post_html_fallback h, rfl, rfl, rfl⟩

/-- Witness for C2 amended at the missing-credentials input. -/
theorem C2_fallback_guarantee_witness :
    ((none : Option String) = none) ∧
    (analyze_post_html none true "some post html".data GptBackend.raises = fallback_analysis ∧
     fallback_analysis.fraud_score = 0 ∧
     fallback_analysis.risk_level = "LOW" ∧
     fallback_analysis.fraud_type = "analysis_failed") :=
  ⟨rfl, C2_fallback_guarantee none true "some post html".data GptBackend.raises (Or.inl rfl)⟩

/-- C7: empty or whitespace-only content short-circuits the lexical scorer
to a zero score, LOW risk, no matched keywords or patterns, and the fixed
reasoning string; empty content is never classified as fraud. -/
theorem C7_blank_content (text : Str) (h : text.all isPySpace = true) :
    (analyze_text text).fraud_score = 0 ∧
    (analyze_text text).risk_level = "LOW" ∧
    (analyze_text text).matched_keywords = [] ∧
    (analyze_text text).matched_patterns = [] ∧
    (analyze_text text).reasoning = "No content to analyze" := by
  rw [analyze_text_of_blank (Or.inr (strStrip_eq_nil_of_all_space (by simpa using h)))]
  exact ⟨rfl, rfl, rfl, rfl, rfl⟩

/-- Witness for C7 at the whitespace-only input made of three blanks. -/
theorem C7_blank_content_witness :
    ("   ".data.all isPySpace = true) ∧
    ((analyze_text "   ".data).fraud_score = 0 ∧
     (analyze_text "   ".data).risk_level = "LOW" ∧
     (analyze_text "   ".data).matched_keywords = [] ∧
     (analyze_text "   ".data).matched_patterns = [] ∧
     (analyze_text "   ".data).reasoning = "No content to analyze") :=
  ⟨by decide, C7_blank_content "   ".data (by decide)⟩

/-- C9: the fraud score is always inside the unit interval, both after the
lexical scorer and after the adapter normalization, whatever numeric score
the backend supplies. -/
theorem C9_score_clamped :
    (∀ text : Str,
      0 ≤ (analyze_text text).fraud_score ∧ (analyze_text text).fraud_score ≤ 1) ∧
    (∀ a : GptAnalysis,
      0 ≤ (normalize_analysis a).fraud_score ∧ (normalize_analysis a).fraud_score ≤ 1) :=
  ⟨fun text => ⟨analyze_text_score_nonneg text, analyze_text_score_le_one text⟩,
   fun a => ⟨normalize_analysis_score_nonneg a, normalize_analysis_score_le_one a⟩⟩

/-- C3 counterexample: the adapter normalization keeps a syntactically
valid risk level supplied by the backend even when it contradicts the
thresholds — a backend reply with score 0 and level HIGH is normalized to
HIGH although 0 < 0.7, so level and score are not consistent. -/
theorem C3_counterexample :
    ¬ ((normalize_analysis
          ⟨none, some 0, some "HIGH", none, none, none, none, none, none, none⟩).risk_level
            = "HIGH" ↔
        7/10 ≤ (normalize_analysis
          ⟨none, some 0, some "HIGH", none, none, none, none, none, none, none⟩).fraud_score) := by
  intro h
  have hs : (normalize_analysis
      ⟨none, some 0, some "HIGH", none, none, none, none, none, none, none⟩).fraud_score = 0 := by
    simp [normalize_analysis]
  have h7 := h.mp rfl
  rw [hs] at h7
  norm_num at h7

/-- C3 amended: the lexical scorer always derives the risk level from the
score by the §4.3 thresholds; the adapter normalization re-derives the
level from the score only when the supplied value (a missing level
defaults to LOW) is not one of HIGH/MEDIUM/LOW — a syntactically valid
supplied level is kept even when inconsistent with the score. -/
theorem C3_risk_level_policy :
    (∀ text : Str,
      (analyze_text text).risk_level = riskOfScore (analyze_text text).fraud_score) ∧
    (∀ a : GptAnalysis,
      (normalize_analysis a).risk_level =
        if a.risk_level.getD "LOW" = "HIGH" ∨ a.risk_level.getD "LOW" = "MEDIUM" ∨
            a.risk_level.getD "LOW" = "LOW"
        then a.risk_level.getD "LOW"
        else riskOfScore (normalize_analysis a).fraud_score) := by
  constructor
  · intro text
    by_cases h : text = [] ∨ strStrip text = []
    · rw [analyze_text_of_blank h]
      norm_num [riskOfScore]
    · rw [analyze_text_of_content h]
  · intro a
    rfl

/-- C5 counterexample: the status endpoint moves a resolved alert back to
open — resolved is not terminal and transitions are not monotonic. -/
theorem C5_counterexample :
    (update_threat_status [⟨1, "resolved"⟩] 1 "open").1 = [⟨1, "open"⟩] ∧
    (update_threat_status [⟨1, "resolved"⟩] 1 "open").2 = true := by
  decide

/-- C5 amended: `update_threat_status` validates only that the new status
is one of open/investigating/resolved; for a valid status it sets the
targeted alert to that status unconditionally, regardless of the current
status, and reports success exactly when the id exists.  An invalid
status is rejected with no change. -/
theorem C5_status_update_unrestricted (db : List AlertRec) (threatId : Nat) (status : String) :
    (validStatus status = false → update_threat_status db threatId status = (db, false)) ∧
    (validStatus status = true →
      (update_threat_status db threatId status).1 =
        db.map (fun a => if a.id = threatId then { a with status := status } else a) ∧
      (update_threat_status db threatId status).2 = db.any (fun a => a.id = threatId) ∧
      ∀ a ∈ db, a.id = threatId →
        ({ id := a.id, status := status } : AlertRec) ∈ (update_threat_status db threatId status).1) := by
  refine ⟨fun h => ?_, fun h => ⟨?_, ?_, ?_⟩⟩
  · simp [update_threat_status, h]
  · simp [update_threat_status, h]
  · simp [update_threat_status, h]
  · intro a ha hid
    have hm := List.mem_map_of_mem
      (fun a : AlertRec => if a.id = threatId then { a with status := status } else a) ha
    simp only [update_threat_status, h, if_true]
    simpa [hid] using hm

/-- Witness for C5 amended: updating alert 1 from open to investigating
stores exactly the requested status. -/
theorem C5_status_update_witness :
    ({ id := 1, status := "investigating" } : AlertRec) ∈
      (update_threat_status [⟨1, "open"⟩] 1 "investigating").1 :=
  ((C5_status_update_unrestricted [⟨1, "open"⟩] 1 "investigating").2 (by decide)).2.2
    ⟨1, "open"⟩ (by decide) rfl

lemma searchSinkOps_store_row {sponsored : Bool} {html cleanText : Str} {r : HtmlResult}
    {row : ScrapedPostRow}
    (hm : SinkOp.storePost row ∈ searchSinkOps sponsored html cleanText r) :
    row = searchStoreRow r ∧ 20 ≤ r.content.length := by
  rw [searchSinkOps_eq] at hm
  by_cases hact : searchPostAction sponsored html cleanText r = .analyzedStored
  · rw [if_pos hact] at hm
    have hg := (searchPostAction_stored hact).1
    push_neg at hg
    refine ⟨?_, hg.2⟩
    rcases List.mem_cons.mp hm with h | h
    · exact SinkOp.storePost.inj h
    · exact SinkOp.noConfusion (List.mem_singleton.mp h)
  · rw [if_neg hact] at hm
    exact absurd hm (List.not_mem_nil _)

lemma searchSinkOps_alert_row {sponsored : Bool} {html cleanText : Str} {r : HtmlResult}
    {row : FraudAlertRow}
    (hm : SinkOp.createAlert row ∈ searchSinkOps sponsored html cleanText r) :
    row = searchAlertRow r ∧ 20 ≤ r.content.length := by
  rw [searchSinkOps_eq] at hm
  by_cases hact : searchPostAction sponsored html cleanText r = .analyzedStored
  · rw [if_pos hact] at hm
    have hg := (searchPostAction_stored hact).1
    push_neg at hg
    refine ⟨?_, hg.2⟩
    rcases List.mem_cons.mp hm with h | h
    · exact SinkOp.noConfusion h
    · exact SinkOp.createAlert.inj (List.mem_singleton.mp h)
  · rw [if_neg hact] at hm
    exact absurd hm (List.not_mem_nil _)

lemma searchSinkOps_of_fallback {sponsored : Bool} {html cleanText : Str} :
    searchSinkOps sponsored html cleanText fallback_analysis = [] := by
  rw [searchSinkOps_eq, if_neg]
  intro hact
  have hg := (searchPostAction_stored hact).1
  exact hg (Or.inl rfl)

lemma analyze_sample_eval :
    analyze_post_html (some "key") true (List.replicate 60 'a') (.parsed sampleGptAnalysis) =
      normalize_analysis sampleGptAnalysis := by
  refine analyze_post_html_parsed ?_
  rw [clean_html_replicate_a_small (by norm_num) (by norm_num [cleanHtmlMaxLength])]
  rintro (hnil | hlt)
  · simpa using congrArg List.length hnil
  · rw [List.length_replicate] at hlt
    omega

lemma sample_ops_eval :
    searchSinkOps false (List.replicate 100 'x') (List.replicate 60 'a')
        (normalize_analysis sampleGptAnalysis) =
      [.storePost (searchStoreRow (normalize_analysis sampleGptAnalysis)),
       .createAlert (searchAlertRow (normalize_analysis sampleGptAnalysis))] := by
  have hs : (normalize_analysis sampleGptAnalysis).fraud_score ≥ 1/2 := by
    rw [normalize_sample_score]
    norm_num
  rw [searchSinkOps_eq,
    searchPostAction_of_gates rfl (by decide) (by decide) (by decide), if_pos hs, if_pos rfl]

/-- C10: in the keyword-search pipeline, every stored post row and every
alert row carries content of at least 20 characters; a fallback result of
the adapter (and hence every failed analysis: missing key, missing
library, raising backend, non-JSON reply, too-short cleaned input) never
leads to a stored post or an alert. -/
theorem C10_content_gate (sponsored : Bool) (html cleanText : Str) (apiKey : Option String)
    (lib : Bool) (backend : GptBackend) :
    (∀ row : ScrapedPostRow,
      SinkOp.storePost row ∈ searchSinkOps sponsored html cleanText
          (analyze_post_html apiKey lib cleanText backend) → 20 ≤ row.content.length) ∧
    (∀ row : FraudAlertRow,
      SinkOp.createAlert row ∈ searchSinkOps sponsored html cleanText
          (analyze_post_html apiKey lib cleanText backend) → 20 ≤ row.content_text.length) ∧
    (analyze_post_html apiKey lib cleanText backend = fallback_analysis →
      searchSinkOps sponsored html cleanText (analyze_post_html apiKey lib cleanText backend)
        = []) ∧
    ((apiKey = none ∨ lib = false ∨ backend = .raises ∨ backend = .nonJson ∨
        (clean_html cleanText).length < 50) →
      searchSinkOps sponsored html cleanText (analyze_post_html apiKey lib cleanText backend)
        = []) := by
  refine ⟨?_, ?_, ?_, ?_⟩
  · intro row hm
    obtain ⟨hrow, hlen⟩ := searchSinkOps_store_row hm
    rw [hrow]
    exact hlen
  · intro row hm
    obtain ⟨hrow, hlen⟩ := searchSinkOps_alert_row hm
    rw [hrow]
    exact hlen
  · intro hf
    rw [hf]
    exact searchSinkOps_of_fallback
  · intro h
    rw [analyze_post_html_fallback h]
    exact searchSinkOps_of_fallback

/-- Witness for C10: a successfully analyzed post with long content is
stored, and its stored row indeed carries at least 20 characters. -/
theorem C10_content_gate_witness :
    20 ≤ (searchStoreRow (analyze_post_html (some "key") true (List.replicate 60 'a')
      (.parsed sampleGptAnalysis))).content.length :=
  (C10_content_gate false (List.replicate 100 'x') (List.replicate 60 'a') (some "key") true
    (.parsed sampleGptAnalysis)).1 _ (by
      rw [analyze_sample_eval, sample_ops_eval]
      exact List.mem_cons_self _ _)

lemma feedPostOps_of_low {post : FeedPost}
    (h : (analyze_text post.content.data).fraud_score < 1/2) : feedPostOps post = [] := by
  unfold feedPostOps
  by_cases hc : post.content = ""
  · rw [if_pos hc]
  · rw [if_neg hc, if_neg (not_le.mpr h)]

lemma feedPostOps_of_high {post : FeedPost}
    (h : 1/2 ≤ (analyze_text post.content.data).fraud_score) (hc : post.content ≠ "") :
    feedPostOps post = [.storePost (feedStoreRow post (analyze_text post.content.data))] := by
  unfold feedPostOps
  rw [if_neg hc, if_pos h]

lemma content_ne_of_score_pos {post : FeedPost}
    (h : 0 < (analyze_text post.content.data).fraud_score) : post.content ≠ "" := by
  intro hc
  rw [hc] at h
  have hz : (analyze_text ("" : String).data).fraud_score = 0 := by
    rw [analyze_text_of_blank (Or.inl rfl)]
  rw [hz] at h
  exact lt_irrefl 0 h

lemma processBatchOps_single {p1 p2 p3 p4 p5 p6 p7 p8 p9 p10 : FeedPost}
    (h3ge : 1/2 ≤ (analyze_text p3.content.data).fraud_score)
    (h3ne : p3.content ≠ "")
    (hothers : ∀ p ∈ [p1, p2, p4, p5, p6, p7, p8, p9, p10],
      (analyze_text p.content.data).fraud_score < 1/2) :
    processBatchOps [p1, p2, p3, p4, p5, p6, p7, p8, p9, p10] =
      [.storePost (feedStoreRow p3 (analyze_text p3.content.data))] := by
  have hz : ∀ p ∈ [p1, p2, p4, p5, p6, p7, p8, p9, p10], feedPostOps p = [] :=
    fun p hp => feedPostOps_of_low (hothers p hp)
  simp only [processBatchOps, List.map_cons, List.map_nil, List.flatten_cons, List.flatten_nil,
    hz p1 (by simp), hz p2 (by simp), hz p4 (by simp), hz p5 (by simp), hz p6 (by simp),
    hz p7 (by simp), hz p8 (by simp), hz p9 (by simp), hz p10 (by simp),
    feedPostOps_of_high h3ge h3ne, List.nil_append, List.append_nil]

/-- C6 amended: in a ten-post batch where post number 3 scores 0.8 and
every other post scores below 0.5, the feed pipeline issues exactly one
sink write: a storePost for post number 3 whose content and author fields
are the post's own, unmodified.  No createAlert is issued — the feed path
never writes to the alert table. -/
theorem C6_single_store (p1 p2 p3 p4 p5 p6 p7 p8 p9 p10 : FeedPost)
    (h3 : (analyze_text p3.content.data).fraud_score = 8/10)
    (hothers : ∀ p ∈ [p1, p2, p4, p5, p6, p7, p8, p9, p10],
      (analyze_text p.content.data).fraud_score < 1/2) :
    processBatchOps [p1, p2, p3, p4, p5, p6, p7, p8, p9, p10] =
      [.storePost (feedStoreRow p3 (analyze_text p3.content.data))] ∧
    (feedStoreRow p3 (analyze_text p3.content.data)).content = p3.content ∧
    (feedStoreRow p3 (analyze_text p3.content.data)).author_name = p3.author_name ∧
    ∀ row, SinkOp.createAlert row ∉
      processBatchOps [p1, p2, p3, p4, p5, p6, p7, p8, p9, p10] := by
  have h3ge : 1/2 ≤ (analyze_text p3.content.data).fraud_score := by
    rw [h3]
    norm_num
  have h3ne : p3.content ≠ "" :=
    content_ne_of_score_pos (by rw [h3]; norm_num)
  have hops := processBatchOps_single h3ge h3ne hothers
  refine ⟨hops, rfl, rfl, ?_⟩
  intro row hrow
  rw [hops] at hrow
  exact SinkOp.noConfusion (List.mem_singleton.mp hrow)

lemma occursIn_iff {p l : Str} : occursIn p l = true ↔ p <:+: l := by
  unfold occursIn
  rw [List.any_eq_true]
  constructor
  · rintro ⟨t, ht, hp⟩
    exact List.infix_iff_prefix_suffix.mpr ⟨t, List.isPrefixOf_iff_prefix.mp hp,
      (List.mem_tails _ _).mp ht⟩
  · intro h
    obtain ⟨t, hpt, htl⟩ := List.infix_iff_prefix_suffix.mp h
    exact ⟨t, (List.mem_tails _ _).mpr htl, List.isPrefixOf_iff_prefix.mpr hpt⟩

lemma isPySpace_cases {c : Char} (h : isPySpace c = true) :
    c = ' ' ∨ c = '\t' ∨ c = '\n' ∨ c = '\r' ∨ c = '\x0b' ∨ c = '\x0c' := by
  unfold isPySpace at h
  simpa [or_assoc] using h

lemma strLower_space {l : Str} (h : ∀ c ∈ l, isPySpace c = true) :
    ∀ c ∈ strLower l, isPySpace c = true := by
  intro c hc
  obtain ⟨d, hd, rfl⟩ := List.mem_map.mp hc
  rcases isPySpace_cases (h d hd) with rfl | rfl | rfl | rfl | rfl | rfl <;> decide

lemma occursIn_space {p l : Str} (hl : ∀ c ∈ l, isPySpace c = true)
    (hp : p.any (fun c => !isPySpace c) = true) : occursIn p l = false := by
  cases hoc : occursIn p l with
  | false => rfl
  | true =>
      exfalso
      obtain ⟨c, hcp, hcs⟩ := List.any_eq_true.mp hp
      have hmem : c ∈ l := (occursIn_iff.mp hoc).sublist.subset hcp
      rw [hl c hmem] at hcs
      exact absurd hcs (by decide)

lemma anySubstring_space {pats : List Str} {l : Str} (hl : ∀ c ∈ l, isPySpace c = true)
    (hp : ∀ p ∈ pats, p.any (fun c => !isPySpace c) = true) : anySubstring pats l = false := by
  unfold anySubstring
  rw [List.any_eq_false]
  intro p hpp
  rw [occursIn_space hl (hp p hpp)]
  simp

set_option maxRecDepth 10000 in
lemma fraudKeywords_nonspace :
    ∀ kw ∈ fraudKeywords, (strLower kw).any (fun c => !isPySpace c) = true := by
  decide

lemma tenDigitsThenBreak_space {l : Str} (h : ∀ c ∈ l, isPySpace c = true) :
    tenDigitsThenBreak l = false := by
  cases l with
  | nil => rfl
  | cons c t =>
      have hc : c.isDigit = false := by
        rcases isPySpace_cases (h c (by simp)) with rfl | rfl | rfl | rfl | rfl | rfl <;> decide
      have htake : (c :: t).take 10 = c :: t.take 9 := rfl
      unfold tenDigitsThenBreak
      rw [htake, List.all_cons, hc]
      simp

lemma phoneSearch_space {l : Str} (h : ∀ c ∈ l, isPySpace c = true) :
    ∀ prev, phoneSearch prev l = false := by
  induction l with
  | nil => intro prev; rfl
  | cons c t ih =>
      intro prev
      have ht : ∀ x ∈ t, isPySpace x = true := fun x hx => h x (List.mem_cons_of_mem _ hx)
      have hplain : phoneBranchPlain prev (c :: t) = false := by
        unfold phoneBranchPlain
        rw [tenDigitsThenBreak_space h]
        simp
      have hplus : phoneBranchPlus prev (c :: t) = false := by
        unfold phoneBranchPlus
        rcases isPySpace_cases (h c (by simp)) with rfl | rfl | rfl | rfl | rfl | rfl <;> simp
      show (phoneBranchPlain prev (c :: t) || phoneBranchPlus prev (c :: t) ||
        phoneSearch (some c) t) = false
      rw [hplain, hplus, ih ht (some c)]
      rfl

lemma excessiveDiscountsAt_space {l : Str} (h : ∀ c ∈ l, isPySpace c = true) :
    excessiveDiscountsAt l = false := by
  cases l with
  | nil => rfl
  | cons c1 t1 =>
      have h3 : ∀ c3 ∈ t1.tail, isPySpace c3 = true := by
        intro c3 hc3
        exact h c3 (List.mem_cons_of_mem _ (List.mem_of_mem_tail hc3))
      rcases isPySpace_cases (h c1 (by simp)) with rfl | rfl | rfl | rfl | rfl | rfl <;>
        (cases t1 with
         | nil => rfl
         | cons c2 t2 =>
             cases t2 with
             | nil => rfl
             | cons c3 t3 =>
                 rcases isPySpace_cases (h3 c3 (by simp)) with rfl | rfl | rfl | rfl | rfl | rfl <;>
                   rfl)

lemma excessiveDiscounts_space {l : Str} (h : ∀ c ∈ l, isPySpace c = true) :
    excessiveDiscounts l = false := by
  unfold excessiveDiscounts
  rw [List.any_eq_false]
  intro t htl
  have hsub : ∀ c ∈ t, isPySpace c = true :=
    fun c hc => h c (((List.mem_tails _ _).mp htl).sublist.subset hc)
  rw [excessiveDiscountsAt_space hsub]
  simp

lemma fraudPatterns_space {l : Str} (h : ∀ c ∈ l, isPySpace c = true) :
    ∀ r ∈ fraudPatterns, r.pattern l = false := by
  intro r hr
  simp only [fraudPatterns, List.mem_cons, List.not_mem_nil, or_false] at hr
  rcases hr with rfl | rfl | rfl | rfl | rfl
  · exact phoneSearch_space h none
  · exact anySubstring_space h (by decide)
  · exact excessiveDiscounts_space h
  · exact anySubstring_space h (by decide)
  · exact anySubstring_space h (by decide)

lemma all_space_of_strStrip_nil {l : Str} (h : strStrip l = []) :
    ∀ c ∈ l, isPySpace c = true := by
  induction l with
  | nil => intro c hc; simp at hc
  | cons c t ih =>
      by_cases hc : isPySpace c = true
      · have hstep : strStrip (c :: t) = strStrip t := by
          unfold strStrip
          rw [List.dropWhile_cons, if_pos hc]
        intro x hx
        rcases List.mem_cons.mp hx with rfl | hx
        · exact hc
        · exact ih (hstep ▸ h) x hx
      · exfalso
        have hd : (c :: t).dropWhile isPySpace = c :: t := by
          rw [List.dropWhile_cons, if_neg hc]
        unfold strStrip at h
        rw [hd] at h
        have h2 : (c :: t).reverse.dropWhile isPySpace = [] :=
          List.reverse_eq_nil_iff.mp h
        exact hc (List.dropWhile_eq_nil_iff.mp h2 c (by simp))

lemma lex_filters_space {text : Str} (hsp : ∀ c ∈ text, isPySpace c = true) :
    fraudKeywords.filter (fun kw => occursIn (strLower kw) (strLower text)) = [] ∧
    fraudPatterns.filter (fun r => r.pattern (strLower text)) = [] := by
  have hls := strLower_space hsp
  constructor
  · rw [List.filter_eq_nil_iff]
    intro kw hkw
    rw [occursIn_space hls (fraudKeywords_nonspace kw hkw)]
    simp
  · rw [List.filter_eq_nil_iff]
    intro r hr
    rw [fraudPatterns_space hls r hr]
    simp

/-- C4: for every non-empty text the lexical fraud score is
min(keywordScore + patternScore, 1) with keywordScore =
min(0.15 x matched keyword count, 0.6) and patternScore = min(sum of the
matched rule weights, 0.4), where keywords match by case-insensitive
substring containment. -/
theorem C4_lexical_score_formula (text : Str) (h : text ≠ []) :
    (analyze_text text).fraud_score =
      min (min ((fraudKeywords.countP
            (fun kw => occursIn (strLower kw) (strLower text)) : ℚ) * (15/100)) (6/10)
        + min (((fraudPatterns.filter (fun r => r.pattern (strLower text))).map
            PatternRule.weight).sum) (4/10)) 1 ∧
    (analyze_text text).matched_keywords =
      fraudKeywords.filter (fun kw => occursIn (strLower kw) (strLower text)) := by
  by_cases hb : text = [] ∨ strStrip text = []
  · have hsp : ∀ c ∈ text, isPySpace c = true := by
      rcases hb with rfl | hs
      · exact absurd rfl h
      · exact all_space_of_strStrip_nil hs
    obtain ⟨hkf, hpf⟩ := lex_filters_space hsp
    rw [analyze_text_of_blank hb, List.countP_eq_length_filter, hkf, hpf]
    constructor
    · show (0 : ℚ) = _
      norm_num [min_def]
    · rfl
  · rw [analyze_text_of_content hb, List.countP_eq_length_filter]
    exact ⟨rfl, rfl⟩

/-- Witness for C4 at a four-keyword, one-pattern input. -/
theorem C4_lexical_score_formula_witness :
    ("urgent hurry act now bet".data ≠ []) ∧
    ((analyze_text "urgent hurry act now bet".data).fraud_score =
      min (min ((fraudKeywords.countP
            (fun kw => occursIn (strLower kw) (strLower "urgent hurry act now bet".data)) : ℚ)
          * (15/100)) (6/10)
        + min (((fraudPatterns.filter
            (fun r => r.pattern (strLower "urgent hurry act now bet".data))).map
            PatternRule.weight).sum) (4/10)) 1 ∧
     (analyze_text "urgent hurry act now bet".data).matched_keywords =
       fraudKeywords.filter
         (fun kw => occursIn (strLower kw) (strLower "urgent hurry act now bet".data))) :=
  ⟨by decide, C4_lexical_score_formula "urgent hurry act now bet".data (by decide)⟩

set_option maxRecDepth 4000 in
lemma scam_keywords_eval :
    (fraudKeywords.filter
      (fun kw => occursIn (strLower kw) (strLower scenarioScamPost.content.data))).length
      = 4 := by
  decide

lemma scam_patterns_eval :
    ((fraudPatterns.filter
        (fun r => r.pattern (strLower scenarioScamPost.content.data))).map
      PatternRule.weight) = [2/10] := rfl

lemma score_scam :
    (analyze_text scenarioScamPost.content.data).fraud_score = 8/10 := by
  rw [analyze_text_of_content (by decide)]
  show min (min (((fraudKeywords.filter
      (fun kw => occursIn (strLower kw) (strLower scenarioScamPost.content.data))).length : ℚ)
        * (15/100)) (6/10)
      + min (((fraudPatterns.filter
          (fun r => r.pattern (strLower scenarioScamPost.content.data))).map
        PatternRule.weight).sum) (4/10)) 1 = 8/10
  rw [scam_keywords_eval, scam_patterns_eval]
  norm_num [min_def]

set_option maxRecDepth 4000 in
lemma coconut_keywords_eval :
    (fraudKeywords.filter
      (fun kw => occursIn (strLower kw) (strLower "fresh coconuts for sale".data))).length
      = 0 := by
  decide

lemma coconut_patterns_eval :
    ((fraudPatterns.filter
        (fun r => r.pattern (strLower "fresh coconuts for sale".data))).map
      PatternRule.weight) = [] := rfl

lemma score_coconut :
    (analyze_text "fresh coconuts for sale".data).fraud_score = 0 := by
  rw [analyze_text_of_content (by decide)]
  show min (min (((fraudKeywords.filter
      (fun kw => occursIn (strLower kw) (strLower "fresh coconuts for sale".data))).length : ℚ)
        * (15/100)) (6/10)
      + min (((fraudPatterns.filter
          (fun r => r.pattern (strLower "fresh coconuts for sale".data))).map
        PatternRule.weight).sum) (4/10)) 1 = 0
  rw [coconut_keywords_eval, coconut_patterns_eval]
  norm_num [min_def]

lemma score_coconut_lt :
    (analyze_text "fresh coconuts for sale".data).fraud_score < 1/2 := by
  rw [score_coconut]
  norm_num

lemma scenario_others_low :
    ∀ p ∈ [scenarioOtherPost "seller one", scenarioOtherPost "seller two",
      scenarioOtherPost "seller four", scenarioOtherPost "seller five",
      scenarioOtherPost "seller six", scenarioOtherPost "seller seven",
      scenarioOtherPost "seller eight", scenarioOtherPost "seller nine",
      scenarioOtherPost "seller ten"],
      (analyze_text p.content.data).fraud_score < 1/2 := by
  intro p hp
  simp only [List.mem_cons, List.not_mem_nil, or_false] at hp
  rcases hp with rfl | rfl | rfl | rfl | rfl | rfl | rfl | rfl | rfl <;>
    exact score_coconut_lt

/-- Witness for C6 amended, at the scenario batch itself. -/
theorem C6_single_store_witness :
    processBatchOps scenarioBatch =
      [.storePost (feedStoreRow scenarioScamPost
        (analyze_text scenarioScamPost.content.data))] ∧
    (feedStoreRow scenarioScamPost
        (analyze_text scenarioScamPost.content.data)).content = scenarioScamPost.content ∧
    (feedStoreRow scenarioScamPost
        (analyze_text scenarioScamPost.content.data)).author_name
      = scenarioScamPost.author_name ∧
    ∀ row, SinkOp.createAlert row ∉ processBatchOps scenarioBatch :=
  C6_single_store _ _ scenarioScamPost _ _ _ _ _ _ _ score_scam scenario_others_low

/-- C6 counterexample: on the scenario batch the feed pipeline issues the
one storePost for post number 3 and no createAlert at all — the
Persistence Sink never receives a storePost/createAlert pair in this
path, because the feed scraper has no alert writer. -/
theorem C6_counterexample :
    (analyze_text scenarioScamPost.content.data).fraud_score = 8/10 ∧
    (∀ p ∈ scenarioBatch, p ≠ scenarioScamPost →
      (analyze_text p.content.data).fraud_score < 1/2) ∧
    processBatchOps scenarioBatch =
      [.storePost (feedStoreRow scenarioScamPost
        (analyze_text scenarioScamPost.content.data))] ∧
    ∀ row, SinkOp.createAlert row ∉ processBatchOps scenarioBatch := by
  have h3ge : 1/2 ≤ (analyze_text scenarioScamPost.content.data).fraud_score := by
    rw [score_scam]
    norm_num
  have h3ne : scenarioScamPost.content ≠ "" :=
    content_ne_of_score_pos (by rw [score_scam]; norm_num)
  have hops : processBatchOps scenarioBatch =
      [.storePost (feedStoreRow scenarioScamPost
        (analyze_text scenarioScamPost.content.data))] :=
    processBatchOps_single h3ge h3ne scenario_others_low
  refine ⟨score_scam, ?_, hops, ?_⟩
  · intro p hp hne
    simp only [scenarioBatch, List.mem_cons, List.not_mem_nil, or_false] at hp
    rcases hp with rfl | rfl | rfl | rfl | rfl | rfl | rfl | rfl | rfl | rfl
    · exact score_coconut_lt
    · exact score_coconut_lt
    · exact absurd rfl hne
    · exact score_coconut_lt
    · exact score_coconut_lt
    · exact score_coconut_lt
    · exact score_coconut_lt
    · exact score_coconut_lt
    · exact score_coconut_lt
    · exact score_coconut_lt
  · intro row hrow
    rw [hops] at hrow
    exact SinkOp.noConfusion (List.mem_singleton.mp hrow)

lemma mem_of_getLast?_eq {l : Str} {c : Char} (h : l.getLast? = some c) : c ∈ l := by
  obtain ⟨hne, heq⟩ := List.mem_getLast?_eq_getLast (Option.mem_def.mpr h)
  rw [heq]
  exact List.getLast_mem hne

lemma infix_concat_of_not_mem {p l : Str} {c : Char} (hc : c ∉ p) (h : p <:+: l ++ [c]) :
    p <:+: l := by
  rcases eq_or_ne p [] with rfl | hne
  · exact List.nil_infix
  obtain ⟨s, t, hst⟩ := h
  rcases List.eq_nil_or_concat t with rfl | ⟨t0, d, rfl⟩
  · rw [List.append_nil] at hst
    exfalso
    have h1 : (s ++ p).getLast? = p.getLast? := List.getLast?_append_of_ne_nil s hne
    rw [hst, List.getLast?_concat] at h1
    exact hc (mem_of_getLast?_eq h1.symm)
  · rw [List.concat_eq_append, ← List.append_assoc] at hst
    obtain ⟨h1, -⟩ := List.append_inj' hst rfl
    exact ⟨s, t0, h1⟩

lemma infix_joinSpace_of_mem {p kw : Str} {kws : List Str} (hm : kw ∈ kws) (h : p <:+: kw) :
    p <:+: joinSpace kws := by
  induction kws with
  | nil => simp at hm
  | cons x t ih =>
      rcases List.mem_cons.mp hm with rfl | hm'
      · cases t with
        | nil => exact h
        | cons y t2 => exact h.trans (List.prefix_append kw _).isInfix
      · have hJ := ih hm'
        cases t with
        | nil => simp at hm'
        | cons y t2 =>
            exact hJ.trans
              (((List.suffix_cons ' ' (joinSpace (y :: t2))).trans
                (List.suffix_append x _)).isInfix)

lemma exists_mem_of_infix_joinSpace {p : Str} (hne : p ≠ []) (hsp : ' ' ∉ p) :
    ∀ {kws : List Str}, p <:+: joinSpace kws → ∃ kw ∈ kws, p <:+: kw := by
  intro kws
  induction kws with
  | nil =>
      intro h
      exact absurd (List.sublist_nil.mp h.sublist) hne
  | cons x t ih =>
      intro h
      cases t with
      | nil => exact ⟨x, by simp, h⟩
      | cons y t2 =>
          have hJ : joinSpace (x :: y :: t2) = (x ++ [' ']) ++ joinSpace (y :: t2) := by
            show x ++ ' ' :: joinSpace (y :: t2) = _
            rw [List.append_assoc]
            rfl
          rw [hJ] at h
          obtain ⟨s, t', hst⟩ := h
          rw [List.append_assoc] at hst
          rcases List.append_eq_append_iff.mp hst with ⟨a', ha1, ha2⟩ | ⟨c', hc1, hc2⟩
          · rcases List.append_eq_append_iff.mp ha2 with ⟨b', hb1, hb2⟩ | ⟨c2, hd1, hd2⟩
            · have hpx : p <:+: x ++ [' '] := by
                rw [hb1, ← List.append_assoc] at ha1
                exact ⟨s, b', ha1.symm⟩
              exact ⟨x, List.mem_cons_self x _, infix_concat_of_not_mem hsp hpx⟩
            · cases a' with
              | nil =>
                  have hpre : p <:+: joinSpace (y :: t2) := by
                    simp only [List.nil_append] at hd1
                    refine ⟨[], t', ?_⟩
                    rw [List.nil_append, hd2, hd1]
                  obtain ⟨kw, hkw, hinf⟩ := ih hpre
                  exact ⟨kw, List.mem_cons_of_mem x hkw, hinf⟩
              | cons a0 a'' =>
                  exfalso
                  have h1 : (s ++ (a0 :: a'')).getLast? = (a0 :: a'').getLast? :=
                    List.getLast?_append_of_ne_nil s (by simp)
                  rw [← ha1, List.getLast?_concat] at h1
                  have h2 : ' ' ∈ a0 :: a'' := mem_of_getLast?_eq h1.symm
                  refine hsp ?_
                  rw [hd1]
                  exact List.mem_append_left c2 h2
          · have hpre : p <:+: joinSpace (y :: t2) := by
              refine ⟨c', t', ?_⟩
              rw [hc2]
              exact List.append_assoc c' p t'
            obtain ⟨kw, hkw, hinf⟩ := ih hpre
            exact ⟨kw, List.mem_cons_of_mem x hkw, hinf⟩

lemma strLower_joinSpace : ∀ kws : List Str,
    strLower (joinSpace kws) = joinSpace (kws.map strLower)
  | [] => rfl
  | [x] => rfl
  | x :: y :: t => by
      show strLower (x ++ ' ' :: joinSpace (y :: t)) = _
      unfold strLower
      rw [List.map_append, List.map_cons]
      have hsp : Char.toLower ' ' = ' ' := by decide
      rw [hsp]
      have hrec := strLower_joinSpace (y :: t)
      unfold strLower at hrec
      rw [hrec]
      rfl

lemma occursIn_joinSpace {p : Str} (hne : p ≠ []) (hsp : ' ' ∉ p) (kws : List Str) :
    occursIn p (strLower (joinSpace kws)) = kws.any (fun kw => occursIn p (strLower kw)) := by
  rw [strLower_joinSpace]
  by_cases hocc : occursIn p (joinSpace (kws.map strLower)) = true
  · rw [hocc]
    obtain ⟨kw', hkw', hinf⟩ := exists_mem_of_infix_joinSpace hne hsp (occursIn_iff.mp hocc)
    obtain ⟨kw, hkw, rfl⟩ := List.mem_map.mp hkw'
    exact (List.any_eq_true.mpr ⟨kw, hkw,
      show occursIn p (strLower kw) = true from occursIn_iff.mpr hinf⟩).symm
  · rw [Bool.eq_false_iff.mpr hocc]
    symm
    rw [List.any_eq_false]
    intro kw hkw hq
    exact hocc (occursIn_iff.mpr
      (infix_joinSpace_of_mem (List.mem_map_of_mem strLower hkw) (occursIn_iff.mp hq)))

lemma list_any_ext {α : Type} {l : List α} {f g : α → Bool} (h : ∀ a ∈ l, f a = g a) :
    l.any f = l.any g := by
  induction l with
  | nil => rfl
  | cons x t ih =>
      rw [List.any_cons, List.any_cons, h x (List.mem_cons_self x t),
        ih (fun a ha => h a (List.mem_cons_of_mem _ ha))]

lemma any_mem_congr {α : Type} {l l' : List α} {f : α → Bool} (h : ∀ a, a ∈ l ↔ a ∈ l') :
    l.any f = l'.any f := by
  cases hb : l.any f with
  | true =>
      obtain ⟨a, ha, hfa⟩ := List.any_eq_true.mp hb
      exact (List.any_eq_true.mpr ⟨a, (h a).mp ha, hfa⟩).symm
  | false =>
      cases hb' : l'.any f with
      | false => rfl
      | true =>
          exfalso
          obtain ⟨a, ha, hfa⟩ := List.any_eq_true.mp hb'
          have hcontra := List.any_eq_true.mpr ⟨a, (h a).mpr ha, hfa⟩
          rw [hb] at hcontra
          exact Bool.noConfusion hcontra

lemma anySubstring_joinSpace {pats : List Str} (hp : ∀ p ∈ pats, p ≠ [] ∧ ' ' ∉ p)
    (kws : List Str) :
    anySubstring pats (strLower (joinSpace kws)) =
      pats.any (fun p => kws.any (fun kw => occursIn p (strLower kw))) := by
  unfold anySubstring
  exact list_any_ext (fun p hpp => occursIn_joinSpace (hp p hpp).1 (hp p hpp).2 kws)

/-- C8: the fraud-type classifier equals the single ordered pass over the
category table (hotel/booking, investment, gambling, adult services, fake
documents, cryptocurrency, payment fraud, else suspicious_content): the
first firing category wins, and the result depends only on the set of
matched keywords. -/
theorem C8_fraud_type_priority :
    (∀ kws : List Str, classify_fraud_type kws = specClassifyBySet kws) ∧
    (∀ kws kws' : List Str, (∀ k, k ∈ kws ↔ k ∈ kws') →
      classify_fraud_type kws = classify_fraud_type kws') := by
  have hmain : ∀ kws : List Str, classify_fraud_type kws = specClassifyBySet kws := by
    intro kws
    simp only [classify_fraud_type]
    rw [anySubstring_joinSpace (by decide) kws, anySubstring_joinSpace (by decide) kws,
      anySubstring_joinSpace (by decide) kws, anySubstring_joinSpace (by decide) kws,
      anySubstring_joinSpace (by decide) kws, anySubstring_joinSpace (by decide) kws,
      anySubstring_joinSpace (by decide) kws]
    rfl
  have hcongr : ∀ (kws kws' : List Str), (∀ k, k ∈ kws ↔ k ∈ kws') →
      ∀ table, specFirstCategory kws table = specFirstCategory kws' table := by
    intro kws kws' hmem table
    induction table with
    | nil => rfl
    | cons cat rest ih =>
        have hfires : specCatFires kws cat = specCatFires kws' cat := by
          unfold specCatFires
          exact list_any_ext (fun trig _ => any_mem_congr hmem)
        show (if specCatFires kws cat then cat.1 else specFirstCategory kws rest) = _
        rw [hfires, ih]
        rfl
  exact ⟨hmain, fun kws kws' hmem => by
    rw [hmain kws, hmain kws']
    exact hcongr kws kws' hmem specFraudTypePriority⟩

/-- Witness for C8: the refinement at a two-keyword list, and invariance
under reordering and duplication of the matched keywords. -/
theorem C8_fraud_type_priority_witness :
    (classify_fraud_type (strs ["bet", "urgent"]) = specClassifyBySet (strs ["bet", "urgent"])) ∧
    ((∀ k, k ∈ strs ["bet", "urgent"] ↔ k ∈ strs ["urgent", "bet", "bet"]) ∧
     classify_fraud_type (strs ["bet", "urgent"])
       = classify_fraud_type (strs ["urgent", "bet", "bet"])) := by
  have hmem : ∀ k, k ∈ strs ["bet", "urgent"] ↔ k ∈ strs ["urgent", "bet", "bet"] := by
    intro k
    constructor
    · intro hk
      rcases List.mem_cons.mp hk with rfl | hk
      · simp [strs]
      · simp only [strs, List.map_cons, List.map_nil, List.mem_singleton] at hk
        simp [strs, hk]
    · intro hk
      simp only [strs, List.map_cons, List.map_nil, List.mem_cons, List.not_mem_nil,
        or_false] at hk
      rcases hk with rfl | rfl | rfl <;> simp [strs]
  exact ⟨C8_fraud_type_priority.1 _, hmem, C8_fraud_type_priority.2 _ _ hmem⟩

end Gaur
